import Mathlib

/-!
Verification of the dunsumday schedule/occurrence/progress engine.

The definitions below are a shallow embedding of the Rust sources under
`src/lib/src`.  Machine integers are modelled as `Nat` with explicit
wrap-around (`% 2^32`) where the Rust code performs unchecked `u32`
arithmetic; in debug builds such an operation panics, in release builds it
wraps, and each theorem about a wrapping site spells this out.  Civil dates
(chrono `NaiveDate`, proleptic Gregorian) are modelled as year/month/day
triples with the standard civil-calendar conversions; instants
(`DateTime<Utc>`, the `OccDate` type) are modelled as seconds since the Unix
epoch (`Int`).  Fallible lookups return `Option`.  Rust iterators are
modelled as explicit step functions on their state, and the few `while`
loops that scan day by day are given explicit fuel; the fuel is large enough
that it is never exhausted on the concrete inputs used in the theorems.
-/

namespace Dunsumday

/-! ## Machine integers -/

/-- The `u32` modulus. -/
def U32 : Nat := 2 ^ 32

/-- Wrapping `u32` subtraction (`a - b` in release Rust; debug Rust panics
when `b > a`).  Both arguments are assumed `< 2^32`. -/
def u32sub (a b : Nat) : Nat := (a + U32 - b) % U32

/-- Wrapping `u32` addition. -/
def u32add (a b : Nat) : Nat := (a + b) % U32

theorem u32sub_eq_sub (a b : Nat) (hb : b ≤ a) (ha : a < U32) :
    u32sub a b = a - b := by
  unfold u32sub
  have h1 : a + U32 - b = (a - b) + U32 := by omega
  rw [h1, Nat.add_mod_right]
  exact Nat.mod_eq_of_lt (by omega)

/-! ## Civil dates (chrono `NaiveDate`) -/

/-- A civil (proleptic Gregorian) date, the model of chrono `NaiveDate`.
`m` ranges over `1..=12` and `d` over `1..=31` for dates produced by the
program. -/
structure Date where
  y : Int
  m : Nat
  d : Nat
deriving DecidableEq

/-- Leap-year predicate of the Gregorian calendar. -/
def isLeap (y : Int) : Bool := y % 4 == 0 && (y % 100 != 0 || y % 400 == 0)

/-- Number of days in month `m` of year `y` (the model of
`days_in_month` in `util/sched.rs`, which computes it by subtracting the
month's first day from the next month's first day). -/
def daysInMonth (y : Int) (m : Nat) : Nat :=
  if m = 2 then (if isLeap y then 29 else 28)
  else if m = 4 ∨ m = 6 ∨ m = 9 ∨ m = 11 then 30
  else 31

theorem daysInMonth_ge_28 (y : Int) (m : Nat) : 28 ≤ daysInMonth y m := by
  unfold daysInMonth
  split
  · split <;> omega
  · split <;> omega

theorem daysInMonth_le_31 (y : Int) (m : Nat) : daysInMonth y m ≤ 31 := by
  unfold daysInMonth
  split
  · split <;> omega
  · split <;> omega

/-- Days since the Unix epoch (1970-01-01) of a civil date; the standard
civil-from-days algorithm, matching chrono's proleptic Gregorian
calendar. -/
def Date.toRD (dt : Date) : Int :=
  let y : Int := if dt.m ≤ 2 then dt.y - 1 else dt.y
  let era : Int := Int.fdiv y 400
  let yoe : Nat := (y - era * 400).toNat
  let mp : Nat := if dt.m > 2 then dt.m - 3 else dt.m + 9
  let doy : Nat := (153 * mp + 2) / 5 + dt.d - 1
  let doe : Nat := yoe * 365 + yoe / 4 - yoe / 100 + doy
  era * 146097 + (doe : Int) - 719468

/-- Civil date from days since the Unix epoch (inverse of `Date.toRD`). -/
def Date.ofRD (z0 : Int) : Date :=
  let z : Int := z0 + 719468
  let era : Int := Int.fdiv z 146097
  let doe : Nat := (z - era * 146097).toNat
  let yoe : Nat := (doe - doe / 1460 + doe / 36524 - doe / 146096) / 365
  let doy : Nat := doe - (365 * yoe + yoe / 4 - yoe / 100)
  let mp : Nat := (5 * doy + 2) / 153
  let d : Nat := doy - (153 * mp + 2) / 5 + 1
  let m : Nat := if mp < 10 then mp + 3 else mp - 9
  let y : Int := (yoe : Int) + era * 400 + (if m ≤ 2 then 1 else 0)
  ⟨y, m, d⟩

/-- Day-of-week in chrono's `number_from_monday` numbering
(Monday = 1 … Sunday = 7). -/
def Date.weekday (dt : Date) : Nat := (((dt.toRD + 3) % 7) + 1).toNat

/-- `date + chrono::naive::Days::new(n)`. -/
def Date.addDays (dt : Date) (n : Nat) : Date := Date.ofRD (dt.toRD + n)

/-- `date - chrono::naive::Days::new(n)`. -/
def Date.subDays (dt : Date) (n : Nat) : Date := Date.ofRD (dt.toRD - n)

/-- Strict calendar order on dates (chrono `NaiveDate` ordering). -/
def Date.ltb (a b : Date) : Bool :=
  if a.y < b.y then true
  else if b.y < a.y then false
  else if a.m < b.m then true
  else if b.m < a.m then false
  else decide (a.d < b.d)

/-- Non-strict calendar order on dates. -/
def Date.leb (a b : Date) : Bool := !(Date.ltb b a)

/-- `chrono::NaiveDate::MAX`, the saturation value used by the source via
`unwrap_or(NaiveDate::MAX)`. -/
def dateMAX : Date := ⟨262143, 12, 31⟩

/-- `chrono::NaiveDate::MIN`, used by the source via
`unwrap_or(NaiveDate::MIN)`. -/
def dateMIN : Date := ⟨-262144, 1, 1⟩

/-- chrono `with_day`: replace the day of the month, `none` when the target
day does not exist in the month. -/
def withDay (dt : Date) (d : Nat) : Option Date :=
  if 1 ≤ d ∧ d ≤ daysInMonth dt.y dt.m then some ⟨dt.y, dt.m, d⟩ else none

/-- chrono `with_month`: replace the month, `none` when the current day does
not exist in the target month. -/
def withMonth (dt : Date) (m : Nat) : Option Date :=
  if 1 ≤ m ∧ m ≤ 12 ∧ 1 ≤ dt.d ∧ dt.d ≤ daysInMonth dt.y m then
    some ⟨dt.y, m, dt.d⟩
  else none

/-- `with_dom_saturating` from `util/sched.rs`. -/
def with_dom_saturating (dt : Date) (dom : Nat) : Date :=
  (withDay dt (min dom (daysInMonth dt.y dt.m))).getD dateMAX

/-- `with_moy_dom_saturating` from `util/sched.rs`. -/
def with_moy_dom_saturating (dt : Date) (moy : Nat) (dom : Nat) : Date :=
  with_dom_saturating ((withMonth dt moy).getD dateMAX) dom

/-- Shift a date by `n` months (`n` may be negative), clamping the day to
the target month's length; the semantics of chrono `checked_add_months` and
`checked_sub_months` for in-range results.  Year overflow (outside chrono's
range) is not modelled; no theorem below goes near the calendar limits. -/
def monthShift (dt : Date) (n : Int) : Date :=
  let t : Int := (dt.m : Int) - 1 + n
  let y2 : Int := dt.y + Int.fdiv t 12
  let m2 : Nat := (Int.emod t 12).toNat + 1
  ⟨y2, m2, min dt.d (daysInMonth y2 m2)⟩

/-- `add_months` from `util/sched.rs` (`checked_add_months` with saturation
to `NaiveDate::MAX`, which is never reached in the claims below). -/
def add_months (dt : Date) (months : Nat) : Date := monthShift dt months

/-- `forwards_to_dow` from `util/sched.rs`.  The source computes
`dow.number_from_monday() - date.weekday().number_from_monday()` as an
unchecked `u32` subtraction; this wraps (release) or panics (debug) when
the date's weekday is numbered after `dow`.  Modelled with wrapping. -/
def forwards_to_dow (date : Date) (dow : Nat) : Date :=
  let dow_diff : Nat := u32sub dow date.weekday
  if dow_diff = 0 then date
  else date.addDays (dow_diff % 7)

/-- `year_of_date` from `util/sched.rs` (the chrono year). -/
def year_of_date (dt : Date) : Int := dt.y

/-- `of_year` from `util/sched.rs`: the first day of a year. -/
def of_year (y : Int) : Date := ⟨y, 1, 1⟩

/-! ## Schedule types (`types.rs`) -/

/-- `ProgressTaskSched` from `types.rs`.  Weekdays are chrono
`number_from_monday` values. -/
inductive ProgressTaskSched
  | Days (num : Nat)
  | Weeks (num : Nat) (start_day : Nat)
  | Months (num : Nat) (start_day : Nat)
  | Years (num : Nat) (start_month : Nat) (start_dom : Nat)
deriving DecidableEq

/-- `DayFilter` from `types.rs`.  Weekdays are chrono `number_from_monday`
values; `DateFixed` is the source's `Date` variant (renamed to avoid the
clash with the `Date` model type). -/
inductive DayFilter
  | Day (days_apart : Nat)
  | Dow (day : Nat) (weeks_apart : Nat)
  | Dows (days : List Nat)
  | Dom (days : List Nat) (months_apart : Nat)
  | Wom (dow : Nat) (weeks : List Nat) (months_apart : Nat)
  | Doy (dom : Nat) (month : Nat) (years_apart : Nat)
  | DateFixed (dom : Nat) (month : Nat) (year : Int)
deriving DecidableEq

/-! ## `ProgressTaskPeriodsIter` (`util/sched.rs`) -/

/-- One call of `ProgressTaskPeriodsIter::next`: from the iterator's cursor
`day`, produce the yielded `(start, end)` pair.  The new cursor is the pair's
second component (the source assigns `self.day = end`).  Note two behaviours
carried over from the source: the `Weeks` alignment subtracts weekday
numbers in unchecked `u32` (wrapping modelled), and in the `Months` arm the
source's `if end.day() != dom { let end = with_dom_saturating(end, dom); }`
binds a shadowed dead local, so the recomputed value is discarded and the
unsaturated `end` is returned. -/
def ptpStep (sched : ProgressTaskSched) (day : Date) : Date × Date :=
  match sched with
  | .Days num => (day, day.addDays num)
  | .Weeks num dow =>
      let dow_diff := u32sub day.weekday dow
      let start := if dow_diff = 0 then day else day.subDays (dow_diff % 7)
      (start, start.addDays (7 * num))
  | .Months num dom =>
      let now_dom := day.d
      let start :=
        if now_dom < dom then with_dom_saturating (monthShift day (-1)) dom
        else (withDay day dom).getD dateMIN
      (start, add_months start num)
  | .Years num moy dom =>
      let start_this_year := with_moy_dom_saturating day moy dom
      if day.leb start_this_year then
        (start_this_year,
         with_moy_dom_saturating
           (of_year (year_of_date start_this_year + 1)) moy dom)
      else
        (with_moy_dom_saturating
           (of_year (year_of_date start_this_year - 1)) moy dom,
         start_this_year)

/-- The `k`-th pair yielded by `ProgressTaskPeriodsIter::new(sched, d0)`
(the iterator never returns `None`). -/
def ptpNth (sched : ProgressTaskSched) (d0 : Date) : Nat → Date × Date
  | 0 => ptpStep sched d0
  | n + 1 => ptpStep sched (ptpNth sched d0 n).2

/-! ## `DayFilterDaysIter` (`util/sched.rs`) -/

/-- The day-by-day scan of the `Dows` arm (`while !dows_days.contains`).
Fuel 8 suffices whenever `days` contains a valid weekday number, since
weekdays cycle with period 7; on a set with no valid weekday the source
loops forever and the model returns `none`. -/
def dowsScan (days : List Nat) (day : Date) : Nat → Option Date
  | 0 => none
  | fuel + 1 =>
      if day.weekday ∈ days then some day
      else dowsScan days (day.addDays 1) fuel

/-- The week-by-week scan of the `Wom` arm
(`while !wom_weeks.contains(day0/7 + 1)`), stepping 7 days at a time.  The
source loops forever when no listed week ≤ 5 ever matches; the fuel bound
is far beyond any input used below. -/
def womScan (weeks : List Nat) (day : Date) : Nat → Option Date
  | 0 => none
  | fuel + 1 =>
      if (day.d - 1) / 7 + 1 ∈ weeks then some day
      else womScan weeks (day.addDays 7) fuel

/-- Insert into a sorted duplicate-free list of `u8` values (the model of
`BTreeSet<u8>` as used for `dom_days`). -/
def insertSortedNat (a : Nat) : List Nat → List Nat
  | [] => [a]
  | b :: bs =>
      if a < b then a :: b :: bs
      else if a = b then b :: bs
      else b :: insertSortedNat a bs

/-- `BTreeSet::from_iter`: sorted, duplicate-free contents. -/
def btreeSet (l : List Nat) : List Nat :=
  l.foldl (fun acc a => insertSortedNat a acc) []

/-- One call of `DayFilterDaysIter::next` from cursor `day`: `none` when the
iterator is exhausted, otherwise `some (yielded, new cursor)`. -/
def dfNext (f : DayFilter) (day : Date) : Option (Date × Date) :=
  match f with
  | .Day days_apart => some (day, day.addDays days_apart)
  | .Dow dow weeks_apart =>
      let d2 := forwards_to_dow day dow
      some (d2, d2.addDays (weeks_apart * 7))
  | .Dows days =>
      if days = [] then none
      else
        match dowsScan days day 8 with
        | none => none
        | some d2 => some (d2, d2.addDays 1)
  | .Dom days months_apart =>
      let dom_days := btreeSet days
      if dom_days = [] then none
      else
        let dayOpt : Option Date :=
          match dom_days.find? (fun dm => decide (day.d ≤ dm)) with
          | some dom =>
              if day.d = dom then some day
              else
                let d2 := with_dom_saturating day dom
                if d2 = day then none else some d2
          | none => none
        let yielded :=
          match dayOpt with
          | some d2 => d2
          | none =>
              let next_month :=
                add_months (with_dom_saturating day 1) months_apart
              with_dom_saturating next_month (dom_days.headD 0)
        let st := yielded.addDays 1
        let st :=
          if st.m ≠ yielded.m then add_months st (u32sub months_apart 1)
          else st
        some (yielded, st)
  | .Wom dow weeks _months_apart =>
      if weeks.all (fun w => decide (w > 5)) then none
      else
        let d1 := forwards_to_dow day dow
        match womScan weeks d1 1000 with
        | none => none
        | some d2 => some (d2, d2.addDays 7)
  | .Doy dom month years_apart =>
      let this_year := with_moy_dom_saturating day month dom
      let yielded :=
        if day.ltb this_year then this_year
        else
          with_moy_dom_saturating
            (of_year (year_of_date day + years_apart)) month dom
      some (yielded, of_year (year_of_date yielded + years_apart))
  | .DateFixed dom month year =>
      let st := with_moy_dom_saturating (of_year year) month dom
      if day.ltb st then some (st, st) else none

/-- The `n`-th date yielded by `DayFilterDaysIter::new(f, d0)` (0-based). -/
def dfNth (f : DayFilter) (d0 : Date) : Nat → Option Date
  | 0 => (dfNext f d0).map Prod.fst
  | n + 1 =>
      match dfNext f d0 with
      | none => none
      | some p => dfNth f p.2 n

/-! ## Saturation lemmas -/

theorem withDay_small (x : Date) (dom : Nat) (h1 : 1 ≤ dom) (h2 : dom ≤ 28) :
    withDay x dom = some ⟨x.y, x.m, dom⟩ := by
  unfold withDay
  have h3 := daysInMonth_ge_28 x.y x.m
  rw [if_pos]
  exact ⟨h1, by omega⟩

theorem with_dom_saturating_small (x : Date) (dom : Nat) (h1 : 1 ≤ dom)
    (h2 : dom ≤ 28) : with_dom_saturating x dom = ⟨x.y, x.m, dom⟩ := by
  unfold with_dom_saturating
  have h3 := daysInMonth_ge_28 x.y x.m
  have hmin : min dom (daysInMonth x.y x.m) = dom := by omega
  rw [hmin, withDay_small x dom h1 h2]
  rfl

theorem monthShift_d_small (x : Date) (nn : Int) (dom : Nat) (h2 : dom ≤ 28)
    (hx : x.d = dom) : (monthShift x nn).d = dom := by
  have h3 := daysInMonth_ge_28 (x.y + Int.fdiv ((x.m : Int) - 1 + nn) 12)
      ((Int.emod ((x.m : Int) - 1 + nn) 12).toNat + 1)
  simp only [monthShift]
  omega

/-! ## Contiguity of the period iterator (claim C5) -/

theorem months_step_start_d (num dom : Nat) (h1 : 1 ≤ dom) (h2 : dom ≤ 28)
    (day : Date) : ((ptpStep (.Months num dom) day).1).d = dom := by
  simp only [ptpStep]
  split
  · rw [with_dom_saturating_small _ dom h1 h2]
  · rw [withDay_small day dom h1 h2]
    rfl

theorem months_step_end_d (num dom : Nat) (h1 : 1 ≤ dom) (h2 : dom ≤ 28)
    (day : Date) : ((ptpStep (.Months num dom) day).2).d = dom := by
  have hs := months_step_start_d num dom h1 h2 day
  show (add_months (ptpStep (.Months num dom) day).1 num).d = dom
  exact monthShift_d_small _ _ dom h2 hs

theorem months_step_fix (num dom : Nat) (h1 : 1 ≤ dom) (h2 : dom ≤ 28)
    (e : Date) (he : e.d = dom) : (ptpStep (.Months num dom) e).1 = e := by
  simp only [ptpStep]
  rw [if_neg (by omega : ¬ e.d < dom)]
  rw [withDay_small e dom h1 h2]
  cases e
  simp_all [Option.getD]

/-- The period rules for which the contiguity claim survives: `Days`
always, and `Months` whose `start_day` exists in every month. -/
def contiguousOK : ProgressTaskSched → Prop
  | .Days _ => True
  | .Months _ dom => 1 ≤ dom ∧ dom ≤ 28
  | _ => False

/-- C5 (amended): the period iterator yields contiguous half-open periods
(each pair's start is the previous pair's end) for `Days` rules and for
`Months` rules whose `start_day` is at most 28 (a day present in every
month).  For `Months` rules whose `start_day` exceeds the length of a
crossed month the claim fails (see the counterexample), and the `Weeks`
alignment performs a wrapping `u32` weekday subtraction, so those variants
are excluded. -/
theorem C5_period_iter_contiguous (sched : ProgressTaskSched) (d0 : Date)
    (k : Nat) (h : contiguousOK sched) :
    (ptpNth sched d0 k).2 = (ptpNth sched d0 (k + 1)).1 := by
  have hstep : ptpNth sched d0 (k + 1) = ptpStep sched (ptpNth sched d0 k).2 :=
    rfl
  rw [hstep]
  cases sched with
  | Days num => rfl
  | Weeks num dow => exact h.elim
  | Years num moy dom => exact h.elim
  | Months num dom =>
      refine (months_step_fix num dom h.1 h.2 _ ?_).symm
      cases k with
      | zero => exact months_step_end_d num dom h.1 h.2 d0
      | succ k2 => exact months_step_end_d num dom h.1 h.2 _

theorem C5_period_iter_contiguous_witness :
    contiguousOK (.Days 7) ∧
    (ptpNth (.Days 7) ⟨2024, 1, 1⟩ 0).2 = (ptpNth (.Days 7) ⟨2024, 1, 1⟩ 1).1 :=
  ⟨trivial, C5_period_iter_contiguous (.Days 7) ⟨2024, 1, 1⟩ 0 trivial⟩

/-- C5 counterexample: for `Months { num = 1, start_day = 31 }` starting at
2024-01-31 the first yielded period is `[2024-01-31, 2024-02-29)` but the
second period's start is 2024-01-31 again (the backwards alignment from the
saturated end 2024-02-29 jumps back to January's day 31), so adjacent pairs
are not contiguous. -/
theorem C5_counterexample :
    (ptpNth (.Months 1 31) ⟨2024, 1, 31⟩ 0).2 = ⟨2024, 2, 29⟩ ∧
    (ptpNth (.Months 1 31) ⟨2024, 1, 31⟩ 1).1 = ⟨2024, 1, 31⟩ ∧
    ¬ (ptpNth (.Months 1 31) ⟨2024, 1, 31⟩ 0).2 =
        (ptpNth (.Months 1 31) ⟨2024, 1, 31⟩ 1).1 := by
  decide

/-! ## `forwards_to_dow` (claim C6) -/

/-- C6: `forwards_to_dow` does not return the smallest date on/after its
argument with the requested weekday when the argument's weekday is numbered
after the target in the Monday-first ordering.  2024-01-03 is a Wednesday
(weekday 3); asking for Monday (weekday 1), the unchecked `u32` subtraction
`1 - 3` wraps to `2^32 - 2` (in a debug build it panics), `% 7` gives `2`,
and the function returns 2024-01-05 — a Friday (weekday 5) — instead of the
next Monday 2024-01-08. -/
theorem C6_forwards_to_dow_wraps :
    forwards_to_dow ⟨2024, 1, 3⟩ 1 = ⟨2024, 1, 5⟩ ∧
    Date.weekday ⟨2024, 1, 5⟩ = 5 ∧
    Date.weekday ⟨2024, 1, 8⟩ = 1 ∧
    Date.ltb ⟨2024, 1, 5⟩ ⟨2024, 1, 8⟩ = true := by
  decide

/-! ## The `Wom` day filter (claim C8) -/

/-- C8: the `Wom` arm of `DayFilterDaysIter::next` never uses
`months_apart`.  For `Wom { dow = Tuesday, weeks = [2], months_apart = 2 }`
starting at 2024-01-01, the iterator yields 2024-01-09 (2nd Tuesday of
January) and then 2024-02-13 (2nd Tuesday of February) — a date from the
month immediately after a yielded month, which the claim says is never
yielded when `months_apart = 2`. -/
theorem C8_wom_ignores_months_apart :
    dfNth (.Wom 2 [2] 2) ⟨2024, 1, 1⟩ 0 = some ⟨2024, 1, 9⟩ ∧
    dfNth (.Wom 2 [2] 2) ⟨2024, 1, 1⟩ 1 = some ⟨2024, 2, 13⟩ := by
  decide

/-! ## Core data types (`types.rs`, `db.rs`) -/

/-- `Occ` from `types.rs`.  `start`/`end` are `OccDate` instants, modelled
as seconds since the Unix epoch. -/
structure Occ where
  active : Bool
  start : Int
  end_ : Int
  task_completion_progress : Nat
deriving DecidableEq

/-- `TaskCompletionConfig` from `types.rs`; durations (`std Duration`,
non-negative) in seconds. -/
structure TaskCompletionConfig where
  total : Option Nat
  unit : Option String
  excess_past : Option Nat
  excess_future : Option Nat
deriving DecidableEq

/-- `Config` from `types.rs`. -/
structure Config where
  occ_alert : Option Nat
  task_completion_conf : TaskCompletionConfig
deriving DecidableEq

/-- `opt_duration_to_chrono` from `types.rs` (absent durations become
zero). -/
def opt_duration_to_chrono (d : Option Nat) : Int := (d.getD 0 : Nat)

/-- `TaskCompletionConfig::excess_past_chrono`. -/
def TaskCompletionConfig.excess_past_chrono (c : TaskCompletionConfig) : Int :=
  opt_duration_to_chrono c.excess_past

/-- `TaskCompletionConfig::excess_future_chrono`. -/
def TaskCompletionConfig.excess_future_chrono (c : TaskCompletionConfig) :
    Int :=
  opt_duration_to_chrono c.excess_future

/-- `Config::occ_alert_chrono`. -/
def Config.occ_alert_chrono (c : Config) : Int :=
  opt_duration_to_chrono c.occ_alert

/-- `ItemType` from `types.rs`. -/
inductive ItemType
  | Event
  | ProgressTask
  | DeadlineTask
deriving DecidableEq

/-- `ConfigId` from `db.rs`. -/
inductive ConfigId
  | All
  | Type (t : ItemType)
  | Category (c : String)
  | Item (id : String)
  | Occ (id : String)
deriving DecidableEq

/-- `StoredConfig` from `db.rs`. -/
structure StoredConfig where
  id : ConfigId
  config : Config
deriving DecidableEq

/-- `ResolvedConfig` from `util/config.rs`; the `parent` box forms a finite
chain. -/
inductive ResolvedConfig
  | mk (id : ConfigId) (scope_config : Config) (resolved_config : Config)
      (parent : Option ResolvedConfig)

def ResolvedConfig.id : ResolvedConfig → ConfigId
  | .mk i _ _ _ => i

def ResolvedConfig.scope_config : ResolvedConfig → Config
  | .mk _ s _ _ => s

def ResolvedConfig.resolved_config : ResolvedConfig → Config
  | .mk _ _ r _ => r

def ResolvedConfig.parent : ResolvedConfig → Option ResolvedConfig
  | .mk _ _ _ p => p

/-! ## Association-list maps

`HashMap` values in the source are modelled as association lists with
unique keys: `alInsert` replaces the binding when the key is present and
appends otherwise, exactly the observable behaviour of `HashMap::insert`.
Iteration order of a `HashMap` is arbitrary in Rust; the model iterates in
insertion order, a deterministic refinement that none of the theorems below
depend on. -/

def alGet {α β : Type} [DecidableEq α] (m : List (α × β)) (k : α) :
    Option β :=
  (m.find? (fun p => decide (p.1 = k))).map Prod.snd

def alInsert {α β : Type} [DecidableEq α] (m : List (α × β)) (k : α)
    (v : β) : List (α × β) :=
  if (m.find? (fun p => decide (p.1 = k))).isSome then
    m.map (fun p => if p.1 = k then (k, v) else p)
  else m ++ [(k, v)]

def alRemove {α β : Type} [DecidableEq α] (m : List (α × β)) (k : α) :
    List (α × β) :=
  m.filter (fun p => decide (p.1 ≠ k))

/-! ## Progress resolution (`util/progress.rs`) -/

/-- `TaskProgress` from `util/progress.rs`. -/
structure TaskProgress where
  progress : Nat
  total : Nat
  donated_excess : Nat
  received_excess : Nat
deriving DecidableEq

/-- `TaskProgress::default`. -/
def TaskProgress.defaultValue : TaskProgress := ⟨0, 1, 0, 0⟩

/-- `transfer_progress` from `util/progress.rs`.  `needed` is computed with
unchecked `u32` arithmetic (wraps when `progress` exceeds
`total + received_excess`); the source's `// TODO: donated_excess` means the
donor-side field is never updated. -/
def transfer_progress (excess : Nat) (recv_prog_detail : TaskProgress) :
    Nat × TaskProgress :=
  let needed := u32sub (u32add recv_prog_detail.total
      recv_prog_detail.received_excess) recv_prog_detail.progress
  let transfer := max 0 (min needed excess)
  (u32sub excess transfer,
   { recv_prog_detail with
       received_excess := u32add recv_prog_detail.received_excess transfer })

/-- The per-occurrence initialisation of `resolve_occs_progress_using`:
`progress` is the raw progress, `total` is `total.unwrap_or(1)` of the
resolved config. -/
def initProgressDetail (occ : Occ) (config : ResolvedConfig) : TaskProgress :=
  ⟨occ.task_completion_progress,
   (config.resolved_config.task_completion_conf.total).getD 1, 0, 0⟩

/-- The excess recorded for an occurrence by
`resolve_occs_progress_using`: the source computes
`task_completion_progress - total` as unchecked `u32` subtraction. -/
def initExcess (occ : Occ) (config : ResolvedConfig) : Nat :=
  u32sub occ.task_completion_progress (initProgressDetail occ config).total

/-- The donation candidates pushed for one recipient by the enumeration
loop of `resolve_occs_progress_using`.  Both branch conditions are exactly
the source's; note the second (future) branch compares `donor.start`
against `excess_past_min`, and `excess_future_max` is computed but never
read. -/
def donationsForRecv (occs : List (Occ × ResolvedConfig)) (recv_occ : Occ)
    (config : ResolvedConfig) : List (Occ × Occ × Int) :=
  let cmpl_cfg := config.resolved_config.task_completion_conf
  let excess_past_min := recv_occ.start - cmpl_cfg.excess_past_chrono
  let excess_future_max := recv_occ.end_ + cmpl_cfg.excess_future_chrono
  occs.filterMap (fun dc =>
    let donor_occ := dc.1
    if donor_occ = recv_occ then none
    else if donor_occ.start < recv_occ.start ∧
        donor_occ.end_ > excess_past_min then
      some (recv_occ, donor_occ, recv_occ.start - donor_occ.end_)
    else if donor_occ.start > recv_occ.start ∧
        donor_occ.start < excess_past_min then
      some (recv_occ, donor_occ, donor_occ.start - recv_occ.end_)
    else none)

/-- The first loop of `resolve_occs_progress_using`: builds the `results`
and `occs_excess` maps and the donation list. -/
def rOPInit (occs : List (Occ × ResolvedConfig)) :
    List (Occ × TaskProgress) × List (Occ × Nat) × List (Occ × Occ × Int) :=
  occs.foldl (fun acc oc =>
    (alInsert acc.1 oc.1 (initProgressDetail oc.1 oc.2),
     alInsert acc.2.1 oc.1 (initExcess oc.1 oc.2),
     acc.2.2 ++ donationsForRecv occs oc.1 oc.2)) ([], [], [])

/-- The sort key comparison of the donation sort:
`(dist, recv.start, donor.start)` lexicographically. -/
def donationLe (a b : Occ × Occ × Int) : Bool :=
  if a.2.2 < b.2.2 then true
  else if b.2.2 < a.2.2 then false
  else if a.1.start < b.1.start then true
  else if b.1.start < a.1.start then false
  else decide (a.2.1.start ≤ b.2.1.start)

def insertByLe {α : Type} (le : α → α → Bool) (a : α) :
    List α → List α
  | [] => [a]
  | b :: bs => if le a b then a :: b :: bs else b :: insertByLe le a bs

def sortByLe {α : Type} (le : α → α → Bool) : List α → List α
  | [] => []
  | a :: rest => insertByLe le a (sortByLe le rest)

/-- The transfer loop of `resolve_occs_progress_using`.  The source
`unwrap`s both map lookups; they cannot fail because every donation
endpoint was inserted by the first loop, and the model's fall-through arm
is correspondingly unreachable. -/
def rOPTransfer (donations : List (Occ × Occ × Int))
    (results : List (Occ × TaskProgress)) (occs_excess : List (Occ × Nat)) :
    List (Occ × TaskProgress) × List (Occ × Nat) :=
  donations.foldl (fun st d =>
    match alGet st.2 d.2.1, alGet st.1 d.1 with
    | some excess, some recv_prog_detail =>
        let tr := transfer_progress excess recv_prog_detail
        (alInsert st.1 d.1 tr.2, alInsert st.2 d.2.1 tr.1)
    | _, _ => st) (results, occs_excess)

/-- `resolve_occs_progress_using` from `util/progress.rs`. -/
def resolve_occs_progress_using (occs : List (Occ × ResolvedConfig)) :
    List (Occ × TaskProgress) :=
  let init := rOPInit occs
  (rOPTransfer (sortByLe donationLe init.2.2) init.1 init.2.1).1

/-- Supporting fact for C3: every donation the enumeration generates has
its donor strictly before the recipient; the future branch's condition
`donor.start > recv.start ∧ donor.start < recv.start - excess_past` is
unsatisfiable because durations are non-negative. -/
theorem donationsForRecv_only_past (occs : List (Occ × ResolvedConfig))
    (r : Occ) (c : ResolvedConfig) (x : Occ × Occ × Int)
    (hx : x ∈ donationsForRecv occs r c) : x.2.1.start < x.1.start := by
  unfold donationsForRecv at hx
  rw [List.mem_filterMap] at hx
  obtain ⟨dc, _, hf⟩ := hx
  by_cases h1 : dc.1 = r
  · simp [h1] at hf
  · simp only [if_neg h1] at hf
    split at hf
    · rename_i h2
      cases hf
      exact h2.1
    · split at hf
      · rename_i h3
        have hep : 0 ≤ TaskCompletionConfig.excess_past_chrono
            c.resolved_config.task_completion_conf := by
          unfold TaskCompletionConfig.excess_past_chrono
              opt_duration_to_chrono
          positivity
        omega
      · cases hf

/-- The scenario of spec §8 S5: one item, two week-long occurrences, with
`total = 10` and both excess windows equal to 7 days. -/
def cfgS5 : Config :=
  ⟨none, ⟨some 10, none, some (7 * 86400), some (7 * 86400)⟩⟩

def rcS5 : ResolvedConfig := .mk .All cfgS5 cfgS5 none

def occA : Occ := ⟨true, 86400 * 1, 86400 * 8, 15⟩

def occB : Occ := ⟨true, 86400 * 8, 86400 * 15, 3⟩

/-- C3: with recipient `occA` and donor `occB`, the claim's future-donation
condition holds (`occB.start ≥ occA.end` and
`occB.start < occA.end + excess_future`), yet the enumeration generates no
donation for recipient `occA` at all: the source's future branch compares
`donor.start` against `excess_past_min` instead of `excess_future_max`, a
condition no donor can meet. -/
theorem C3_future_donation_never_generated :
    donationsForRecv [(occA, rcS5), (occB, rcS5)] occA rcS5 = [] ∧
    occB.start ≥ occA.end_ ∧
    occB.start < occA.end_ +
      TaskCompletionConfig.excess_future_chrono
        cfgS5.task_completion_conf := by
  decide

/-- A resolved config with no stored values at all (`total` resolves to the
default 1). -/
def rcEmpty : ResolvedConfig :=
  .mk .All ⟨none, ⟨none, none, none, none⟩⟩ ⟨none, ⟨none, none, none, none⟩⟩
    none

/-- A resolved config with a configured total of 0. -/
def cfgTotal0 : Config := ⟨none, ⟨some 0, none, none, none⟩⟩

def rcTotal0 : ResolvedConfig := .mk .All cfgTotal0 cfgTotal0 none

/-- C4: the initialisation of `resolve_occs_progress_using` is not the
claimed `max(0, raw_progress - total)` / `max(1, cfg.total)`.  With raw
progress 0 and no configured total (so `total = 1`), the unchecked `u32`
subtraction `0 - 1` wraps to `2^32 - 1` (and panics in a debug build)
where the claim requires 0; and with a configured total of 0 the code
keeps `total = 0` where the claim requires `max(1, 0) = 1`. -/
theorem C4_init_excess_underflows :
    initExcess ⟨true, 0, 86400, 0⟩ rcEmpty = 2 ^ 32 - 1 ∧
    (initProgressDetail ⟨true, 0, 86400, 7⟩ rcTotal0).total = 0 := by
  decide

/-! ## The alert predicate (`util.rs`, claim C9) -/

/-- `in_alert_period` from `util.rs`.  The source computes
`alert_start = occ.end - config.occ_alert_chrono()` but then compares the
ambient wall clock `Utc::now()` — not its `date` parameter — against the
window.  The wall clock is modelled as the explicit extra argument
`sysNow`; `date` is accepted and ignored exactly as in the source. -/
def in_alert_period (occ : Occ) (config : ResolvedConfig) (date : Int)
    (sysNow : Int) : Bool :=
  let alert_start := occ.end_ - config.resolved_config.occ_alert_chrono
  decide (sysNow ≥ alert_start) && decide (sysNow < occ.end_)

def occAlertEx : Occ := ⟨true, 0, 100, 0⟩

def cfgAlert : Config := ⟨some 10, ⟨none, none, none, none⟩⟩

def rcAlert : ResolvedConfig := .mk .All cfgAlert cfgAlert none

/-- C9: `in_alert_period` is not a function of its three declared
arguments.  Holding `(occ, config, date)` fixed at `date = 95` — an instant
inside the alert window `[90, 100)`, where the claim requires the result
`true` — the function's value flips with the ambient wall clock: `false`
when the clock reads 50, `true` when it reads 95. -/
theorem C9_alert_depends_on_wall_clock :
    in_alert_period occAlertEx rcAlert 95 50 = false ∧
    in_alert_period occAlertEx rcAlert 95 95 = true ∧
    95 ≥ occAlertEx.end_ - rcAlert.resolved_config.occ_alert_chrono ∧
    (95 : Int) < occAlertEx.end_ := by
  decide

/-! ## Items and the store (`types.rs`, `db.rs`) -/

/-- `EventSched` from `types.rs`; the optional time of day in seconds after
midnight (`NaiveTime::MIN` is 0). -/
structure EventSched where
  initial_day : Date
  days : DayFilter
  time : Option Nat
deriving DecidableEq

/-- `Sched` from `types.rs`; a deadline-task duration is a non-negative
number of seconds. -/
inductive Sched
  | Event (s : EventSched)
  | ProgressTask (s : ProgressTaskSched)
  | DeadlineTask (duration : Nat)
deriving DecidableEq

/-- `Item` from `types.rs`. -/
structure Item where
  type_ : ItemType
  active : Bool
  category : Option String
  name : String
  desc : Option String
  sched : Sched
deriving DecidableEq

/-- `StoredItem` from `db.rs`. -/
structure StoredItem where
  id : String
  created : Int
  updated : Int
  item : Item
deriving DecidableEq

/-- `StoredOcc` from `db.rs`. -/
structure StoredOcc where
  id : String
  occ : Occ
deriving DecidableEq

/-- The store, as observed through the `Db` trait of `db.rs`.  Occurrences
are tagged with the id of their item.  The read operations below follow the
trait's documented contract (the sqlite implementation's divergences are
modelled separately where a claim targets them). -/
structure DbState where
  items : List StoredItem
  occs : List (String × StoredOcc)
  configs : List StoredConfig
  nextId : Nat
deriving DecidableEq

/-- `Db::get_configs`: the stored configs whose id is among the requested
ids (missing ids are silently omitted). -/
def dbGetConfigs (db : DbState) (ids : List ConfigId) : List StoredConfig :=
  db.configs.filter (fun c => c.id ∈ ids)

/-- `Db::get_items`: the stored items whose id is among the requested
ids. -/
def dbGetItems (db : DbState) (ids : List String) : List StoredItem :=
  db.items.filter (fun i => i.id ∈ ids)

/-! ## Config resolution (`util/config.rs`) -/

/-- `build_config_ids_all`. -/
def build_config_ids_all : List ConfigId := [ConfigId.All]

/-- `build_config_ids_type`. -/
def build_config_ids_type (type_ : ItemType) : List ConfigId :=
  build_config_ids_all ++ [ConfigId.Type type_]

/-- `build_config_ids_category`. -/
def build_config_ids_category (item : Item) : List ConfigId :=
  build_config_ids_type item.type_ ++
    (match item.category with
     | some cat => [ConfigId.Category cat]
     | none => [])

/-- `build_config_ids_item`. -/
def build_config_ids_item (item : StoredItem) : List ConfigId :=
  build_config_ids_category item.item ++ [ConfigId.Item item.id]

/-- `build_config_ids_occ`. -/
def build_config_ids_occ (item : StoredItem) (occ : StoredOcc) :
    List ConfigId :=
  build_config_ids_item item ++ [ConfigId.Occ occ.id]

/-- `resolve_config_direct`: per-field child-wins merge. -/
def resolve_config_direct (parent child : Config) : Config :=
  ⟨child.occ_alert.or parent.occ_alert,
   ⟨(child.task_completion_conf.total).or parent.task_completion_conf.total,
    (child.task_completion_conf.unit).or parent.task_completion_conf.unit,
    (child.task_completion_conf.excess_past).or
      parent.task_completion_conf.excess_past,
    (child.task_completion_conf.excess_future).or
      parent.task_completion_conf.excess_future⟩⟩

/-- `resolve_config`: seed from the first (outermost) config, then fold the
whole list parent-to-child (the source's loop starts again from the first
element, so the seed is merged with itself — a no-op for the resolved
value). -/
def resolve_config : List StoredConfig → Option ResolvedConfig
  | [] => none
  | c0 :: rest =>
      let seed : ResolvedConfig := .mk c0.id c0.config c0.config none
      some ((c0 :: rest).foldl (fun resolved c =>
        .mk c.id c.config
          (resolve_config_direct resolved.resolved_config c.config)
          (some resolved)) seed)

/-- First-occurrence deduplication (the observable content of collecting
into a `HashSet` and back into a `Vec`; the source's iteration order is
arbitrary, the model's is deterministic). -/
def dedupKeep {α : Type} [DecidableEq α] (l : List α) : List α :=
  l.foldl (fun acc a => if a ∈ acc then acc else acc ++ [a]) []

/-- The deduplicated union of scope ids that `get_objects_configs` passes
to its single `get_configs` call. -/
def gocAllIds {T : Type} (ids_by_obj : List (T × List ConfigId)) :
    List ConfigId :=
  dedupKeep (ids_by_obj.foldl (fun acc p => acc ++ p.2) [])

/-- `get_objects_configs` from `util/config.rs`: one `get_configs` fetch
for the deduplicated union of all scope ids, then a per-object dispatch.
The dispatch uses `config_by_id.remove(id)` — each fetched config is
consumed by the first object whose chain mentions it. -/
def get_objects_configs {T : Type} (db : DbState)
    (ids_by_obj : List (T × List ConfigId)) : List (T × ResolvedConfig) :=
  let fetched := dbGetConfigs db (gocAllIds ids_by_obj)
  let config_by_id : List (ConfigId × StoredConfig) :=
    fetched.foldl (fun m c => alInsert m c.id c) []
  (ids_by_obj.foldl (fun acc ob =>
    let collected := ob.2.foldl
      (fun (acc2 : List StoredConfig × List (ConfigId × StoredConfig)) cid =>
        match alGet acc2.2 cid with
        | some sc => (acc2.1 ++ [sc], alRemove acc2.2 cid)
        | none => acc2) ([], acc.2)
    match resolve_config collected.1 with
    | some rc => (acc.1 ++ [(ob.1, rc)], collected.2)
    | none => (acc.1, collected.2)) ([], config_by_id)).1

/-- `get_items_configs`. -/
def get_items_configs (db : DbState) (items : List StoredItem) :
    List (StoredItem × ResolvedConfig) :=
  get_objects_configs db
    (items.map (fun item => (item, build_config_ids_item item)))

/-- `get_item_config`. -/
def get_item_config (db : DbState) (item : StoredItem) :
    Option ResolvedConfig :=
  ((get_items_configs db [item]).map (fun p => p.2)).head?

/-- `get_occs_configs`. -/
def get_occs_configs (db : DbState) (occs : List (StoredItem × StoredOcc)) :
    List (StoredOcc × ResolvedConfig) :=
  get_objects_configs db
    (occs.map (fun p => (p.2, build_config_ids_occ p.1 p.2)))

/-- A minimal stored item used by the batch-lookup counterexample. -/
def itemPlain (id : String) : StoredItem :=
  ⟨id, 0, 0, ⟨.Event, true, none, "item", none, .DeadlineTask 86400⟩⟩

/-- A store holding exactly one config, at the shared ancestor scope
`All`. -/
def dbC7 : DbState := ⟨[], [], [⟨.All, cfgAlert⟩], 0⟩

/-- C7: the batch lookup does pass the deduplicated union of both items'
scope chains to its single `get_configs` call, but the per-object dispatch
removes each fetched config from the shared map, so with two items whose
chains share the `All` scope only the first item receives the stored `All`
config: the batch returns a config for item "a" alone, while the same
lookup for item "b" on its own resolves the `All` config — the batch result
is not independent of the other objects in the batch. -/
theorem C7_batch_lookup_consumes_shared_configs :
    gocAllIds ((fun item => (item, build_config_ids_item item)) <$>
        [itemPlain "a", itemPlain "b"]) =
      [.All, .Type .Event, .Item "a", .Item "b"] ∧
    (get_items_configs dbC7 [itemPlain "a", itemPlain "b"]).map
        (fun p => p.1.id) = ["a"] ∧
    (get_items_configs dbC7 [itemPlain "b"]).map (fun p => p.1.id) = ["b"] ∧
    (get_items_configs dbC7 [itemPlain "b"]).map
        (fun p => p.2.resolved_config) = [cfgAlert] := by
  decide

/-! ## `find_occs` and `find_items` -/

/-- `SortDirection` from `db.rs`. -/
inductive SortDirection
  | Asc
  | Desc
deriving DecidableEq

/-- `Db::find_occs` per its documented contract (also the behaviour of
`db/sqlite/read.rs::find_occs` when at most one range bound produces a
filter expression): keep occurrences of the requested items overlapping the
half-open window (`occ.end > start` and `occ.start < end`), ordered by
start date, truncated to `max_results`.  An empty id list applies no item
filter, as in the sqlite source. -/
def dbFindOccs (db : DbState) (item_ids : List String)
    (start endv : Option Int) (sort : SortDirection) (max_results : Nat) :
    List (String × StoredOcc) :=
  let filtered := db.occs.filter (fun p =>
    (item_ids.isEmpty || p.1 ∈ item_ids) &&
    (match start with
     | none => true
     | some s => decide (p.2.occ.end_ > s)) &&
    (match endv with
     | none => true
     | some e => decide (p.2.occ.start < e)))
  let sorted := sortByLe (fun a b =>
    match sort with
    | .Asc => decide (a.2.occ.start ≤ b.2.occ.start)
    | .Desc => decide (b.2.occ.start ≤ a.2.occ.start)) filtered
  sorted.take max_results

/-- `item_only_occ_date` from `db/sqlite/todb.rs`: the `only_occ_end`
column is populated only for events whose day filter is the fixed `Date`
variant, and then holds the item's `initial_day` at midnight. -/
def item_only_occ_date (sched : Sched) : Option Int :=
  match sched with
  | .Event event_sched =>
      match event_sched.days with
      | .DateFixed _ _ _ => some (event_sched.initial_day.toRD * 86400)
      | _ => none
  | _ => none

/-- `find_items` from `db/sqlite/read.rs`.  The filter expressions are
joined with `", "`, so the query is only well-formed SQL when exactly one
filter is supplied (with two the WHERE clause is `active = :active,
only_occ_end > :min_end`, and with none it is empty; both fail to prepare,
modelled as `none`).  When only `start` is supplied, the predicate
`only_occ_end > :min_end` evaluates to SQL NULL for rows whose
`only_occ_end` column is NULL — every recurring item — and those rows are
excluded.  Results are ordered by created date and truncated. -/
def sqliteFindItems (db : DbState) (active : Option Bool)
    (start : Option Int) (sort : SortDirection) (max_results : Nat) :
    Option (List StoredItem) :=
  let numExprs := (if active.isSome then 1 else 0) +
    (if start.isSome then 1 else 0)
  if numExprs ≠ 1 then none
  else
    let filtered := db.items.filter (fun i =>
      (match active with
       | none => true
       | some a => i.item.active == a) &&
      (match start with
       | none => true
       | some s =>
           match item_only_occ_date i.item.sched with
           | none => false
           | some e => decide (e > s)))
    let sorted := sortByLe (fun a b =>
      match sort with
      | .Asc => decide (a.created ≤ b.created)
      | .Desc => decide (b.created ≤ a.created)) filtered
    some (sorted.take max_results)

/-- An active recurring event item (weekly on Tuesdays): its
`only_occ_end` column is NULL. -/
def recurringItem : StoredItem :=
  ⟨"r", 0, 0, ⟨.Event, true, none, "weekly", none,
    .Event ⟨⟨2024, 1, 2⟩, .Dow 2 1, none⟩⟩⟩

def dbC2 : DbState := ⟨[recurringItem], [], [], 0⟩

/-- C2: `find_items` with a `min_end` filter does not include recurring
items.  The store holds one active recurring item (`only_occ_end` NULL);
with only `min_end` supplied the item is filtered out (SQL NULL
comparison), and with both `active` and `min_end` supplied — the
combination `get_current_items` uses — the comma-joined WHERE clause is not
valid SQL and the query fails outright.  Both contradict the claim (and the
`Db::find_items` trait documentation) that recurring items are included
unconditionally. -/
theorem C2_find_items_drops_recurring_items :
    item_only_occ_date recurringItem.item.sched = none ∧
    recurringItem.item.active = true ∧
    sqliteFindItems dbC2 none (some 0) .Asc 10 = some [] ∧
    sqliteFindItems dbC2 (some true) (some 0) .Asc 10 = none := by
  decide

/-! ## Occurrence generation (`util/occgen.rs`) -/

/-- Fuel bound for the source's unbounded iterator loops; never exhausted
on the inputs of the theorems below. -/
def iterFuel : Nat := 1000

/-- `day_to_occ_date`: midnight UTC of a day, in epoch seconds. -/
def day_to_occ_date (day : Date) : Int := day.toRD * 86400

/-- `DateTime::date_naive` of an epoch-seconds instant. -/
def dateNaive (t : Int) : Date := Date.ofRD (Int.fdiv t 86400)

/-- `new_occ` from `util/occgen.rs`. -/
def new_occ (start endv : Int) : Occ := ⟨true, start, endv, 0⟩

/-- `EventOccGen::for_day`. -/
def eventForDay (s : EventSched) (day : Date) : Occ :=
  let start := day.toRD * 86400 + ((s.time.getD 0 : Nat) : Int)
  new_occ start start

/-- The `for day in DayFilterDaysIter … { push; if day > end_day break }`
loop of `EventOccGen::generate_after`. -/
def eventGenAfterLoop (s : EventSched) (end_day : Date) :
    Date → Nat → List Occ
  | _, 0 => []
  | cur, fuel + 1 =>
      match dfNext s.days cur with
      | none => []
      | some p =>
          eventForDay s p.1 ::
            (if end_day.ltb p.1 then []
             else eventGenAfterLoop s end_day p.2 fuel)

/-- `EventOccGen::generate_after`. -/
def eventGenerateAfter (s : EventSched) (occ : Occ) (until_ : Int) :
    List Occ :=
  let occ_day := dateNaive occ.start
  let start_day := occ_day.addDays 1
  let end_day := dateNaive until_
  if end_day.ltb occ_day then []
  else eventGenAfterLoop s end_day start_day iterFuel

/-- The scan of `EventOccGen::generate_first` (`if day >= today return`). -/
def eventGenFirstLoop (s : EventSched) (today : Date) :
    Date → Nat → Option Occ
  | _, 0 => none
  | cur, fuel + 1 =>
      match dfNext s.days cur with
      | none => none
      | some p =>
          if p.1.ltb today then eventGenFirstLoop s today p.2 fuel
          else some (eventForDay s p.1)

/-- `EventOccGen::generate_first`. -/
def eventGenerateFirst (s : EventSched) (now : Int) : Option Occ :=
  eventGenFirstLoop s (dateNaive now) s.initial_day iterFuel

/-- The period loop of `ProgressTaskOccGen::generate_after`. -/
def ptGenAfterLoop (s : ProgressTaskSched) (end_day : Date) :
    Date → Nat → List Occ
  | _, 0 => []
  | cur, fuel + 1 =>
      let p := ptpStep s cur
      new_occ (day_to_occ_date p.1) (day_to_occ_date p.2) ::
        (if end_day.ltb p.2 then []
         else ptGenAfterLoop s end_day p.2 fuel)

/-- `ProgressTaskOccGen::generate_after`. -/
def ptGenerateAfter (s : ProgressTaskSched) (occ : Occ) (until_ : Int) :
    List Occ :=
  let start_day := dateNaive occ.end_
  let end_day := dateNaive until_
  if end_day.ltb (dateNaive occ.end_) then []
  else ptGenAfterLoop s end_day start_day iterFuel

/-- `ProgressTaskOccGen::generate_first`. -/
def ptGenerateFirst (s : ProgressTaskSched) (now : Int) : Option Occ :=
  let p := ptpStep s (dateNaive now)
  some (new_occ (day_to_occ_date p.1) (day_to_occ_date p.2))

/-- The `while start <= until` loop of
`DeadlineTaskOccGen::generate_after`. -/
def dlGenAfterLoop (duration : Nat) (until_ : Int) :
    Int → Nat → List Occ
  | _, 0 => []
  | start, fuel + 1 =>
      if start ≤ until_ then
        new_occ start (start + duration) ::
          dlGenAfterLoop duration until_ (start + duration) fuel
      else []

/-- `DeadlineTaskOccGen::generate_after`. -/
def dlGenerateAfter (duration : Nat) (occ : Occ) (until_ : Int) :
    List Occ :=
  dlGenAfterLoop duration until_ occ.end_ iterFuel

/-- `DeadlineTaskOccGen::generate_first`. -/
def dlGenerateFirst (duration : Nat) (now : Int) : Option Occ :=
  some (new_occ now (now + duration))

/-- The `Box<dyn OccGen>` dispatch of `get_items_current_occ`,
`generate_after` side. -/
def occGenAfter : Sched → Occ → Int → List Occ
  | .Event s, occ, u => eventGenerateAfter s occ u
  | .ProgressTask s, occ, u => ptGenerateAfter s occ u
  | .DeadlineTask d, occ, u => dlGenerateAfter d occ u

/-- The `Box<dyn OccGen>` dispatch, `generate_first` side. -/
def occGenFirst : Sched → Int → Option Occ
  | .Event s, u => eventGenerateFirst s u
  | .ProgressTask s, u => ptGenerateFirst s u
  | .DeadlineTask d, u => dlGenerateFirst d u

/-! ## The current-occurrence materialiser (`util.rs`) -/

/-- `occ_is_current` from `util.rs`. -/
def occ_is_current (date : Int) (sched : Sched) (occ : Occ) : Bool :=
  match sched with
  | .Event _ => decide (occ.start ≥ date)
  | _ => decide (occ.start ≤ date) && decide (occ.end_ ≥ date)

/-- The materialiser's per-item read:
`find_occs(&[&item.id], None, None, Desc, 1)` followed by
`remove(&item.id).and_then(|occs| occs.pop())`. -/
def dbLatestOcc (db : DbState) (itemId : String) : Option StoredOcc :=
  (((dbFindOccs db [itemId] none none .Desc 1).filter
      (fun p => p.1 == itemId)).map Prod.snd).getLast?

/-- The loop state of the first pass of `get_items_current_occ`: the
pending creates (token, item id, occurrence) in insertion order, the items
whose candidate is a fresh token, the items whose candidate is the stored
occurrence, and the `IdToken` counter (process-global in the source; an
explicit argument here, and irrelevant to the results). -/
structure GicoAcc where
  new_occs : List (Nat × String × Occ)
  items_last_token : List (StoredItem × Nat)
  items_last_occ : List (StoredItem × StoredOcc)
  token : Nat
deriving DecidableEq

/-- One iteration of the first pass of `get_items_current_occ`. -/
def gicoItemStep (db : DbState) (date : Int) (acc : GicoAcc)
    (item : StoredItem) : GicoAcc :=
  let item_occ := dbLatestOcc db item.id
  let item_new_occs :=
    match item_occ with
    | some o => occGenAfter item.item.sched o.occ date
    | none => (occGenFirst item.item.sched date).toList
  if item_new_occs.isEmpty then
    match item_occ with
    | some o =>
        { acc with items_last_occ := acc.items_last_occ ++ [(item, o)] }
    | none => acc
  else
    let sorted := sortByLe (fun a b => decide (a.start ≤ b.start))
      item_new_occs
    let numbered := ((List.range sorted.length).zip sorted).map
      (fun p => (acc.token + p.1, item.id, p.2))
    ⟨acc.new_occs ++ numbered,
     acc.items_last_token ++ [(item, acc.token + sorted.length - 1)],
     acc.items_last_occ,
     acc.token + sorted.length⟩

/-- `Db::write` restricted to the `CreateOcc` batches the materialiser
produces: each create appends a row with a fresh id and records the
token-to-id assignment.  The whole batch is applied in order (one
transaction). -/
def dbWriteCreates (db : DbState) (creates : List (Nat × String × Occ)) :
    DbState × List (Nat × String) :=
  creates.foldl (fun st c =>
    (⟨st.1.items,
      st.1.occs ++ [(c.2.1, ⟨toString st.1.nextId, c.2.2⟩)],
      st.1.configs, st.1.nextId + 1⟩,
     st.2 ++ [(c.1, toString st.1.nextId)])) (db, [])

/-- The outcome of one `get_items_current_occ` call: the store after the
write, the returned `(item, occurrence)` pairs, and the batch of
occurrence-creating writes the call issued. -/
structure GicoResult where
  db : DbState
  result : List (StoredItem × StoredOcc)
  creates : List (Nat × String × Occ)
deriving DecidableEq

/-- `get_items_current_occ` from `util.rs`.  `tok0` seeds the `IdToken`
counter (a process-global atomic in the source). -/
def get_items_current_occ (db : DbState) (date : Int)
    (items : List StoredItem) (tok0 : Nat) : GicoResult :=
  let acc := items.foldl (gicoItemStep db date) ⟨[], [], [], tok0⟩
  let wr := dbWriteCreates db acc.new_occs
  let withNew := acc.items_last_token.foldl (fun lst it =>
    match alGet wr.2 it.2, alGet acc.new_occs it.2 with
    | some occ_id, some io => lst ++ [(it.1, ⟨occ_id, io.2⟩)]
    | _, _ => lst) acc.items_last_occ
  ⟨wr.1,
   withNew.filter (fun p => occ_is_current date p.1.item.sched p.2.occ),
   acc.new_occs⟩

/-- A daily event whose first scheduled day is 2024-01-10. -/
def evSchedC1 : EventSched := ⟨⟨2024, 1, 10⟩, .Day 1, none⟩

def itemEvC1 : StoredItem :=
  ⟨"e", 0, 0, ⟨.Event, true, none, "ev", none, .Event evSchedC1⟩⟩

def dbC1 : DbState := ⟨[itemEvC1], [], [], 0⟩

/-- Reference instant: midnight of 2024-01-10. -/
def dateC1 : Int := day_to_occ_date ⟨2024, 1, 10⟩

def c1FirstCall : GicoResult := get_items_current_occ dbC1 dateC1 [itemEvC1] 0

def c1SecondCall : GicoResult :=
  get_items_current_occ c1FirstCall.db dateC1 [itemEvC1] 100

/-- C1 counterexample: starting from an empty store, the first call with
`reference_now` = 2024-01-10T00:00Z persists the event occurrence falling
on the reference day itself and returns it.  The second call with the same
`reference_now` is not write-free: `generate_after` regenerates from the
day after the stored occurrence and always emits one occurrence past the
horizon, so the call persists the 2024-01-11 occurrence and returns that
pair instead of the first call's. -/
theorem C1_second_call_writes :
    c1FirstCall.creates.map (fun c => c.2.2.start) = [dateC1] ∧
    c1FirstCall.result.map (fun p => p.2.occ.start) = [dateC1] ∧
    c1SecondCall.creates.length = 1 ∧
    c1SecondCall.result ≠ c1FirstCall.result := by
  decide

theorem eventGenerateAfter_empty (s : EventSched) (occ : Occ) (until_ : Int)
    (h : (dateNaive until_).ltb (dateNaive occ.start) = true) :
    eventGenerateAfter s occ until_ = [] := by
  unfold eventGenerateAfter
  simp [h]

theorem ptGenerateAfter_empty (s : ProgressTaskSched) (occ : Occ)
    (until_ : Int) (h : (dateNaive until_).ltb (dateNaive occ.end_) = true) :
    ptGenerateAfter s occ until_ = [] := by
  unfold ptGenerateAfter
  simp [h]

theorem dlGenAfterLoop_empty (d : Nat) (u start : Int) (h : ¬ start ≤ u) :
    ∀ fuel, dlGenAfterLoop d u start fuel = [] := by
  intro fuel
  cases fuel with
  | zero => rfl
  | succ n =>
      unfold dlGenAfterLoop
      rw [if_neg h]

theorem dlGenerateAfter_empty (d : Nat) (occ : Occ) (u : Int)
    (h : u < occ.end_) : dlGenerateAfter d occ u = [] := by
  unfold dlGenerateAfter
  exact dlGenAfterLoop_empty d u occ.end_ (by omega) iterFuel

/-- The condition under which `generate_after` regenerates nothing from the
latest stored occurrence `L`: for events the occurrence starts on a day
strictly after the reference day, for progress tasks it ends on a day
strictly after the reference day, and for deadline tasks it ends strictly
after the reference instant. -/
def noRegenOcc (date : Int) (sched : Sched) (L : StoredOcc) : Prop :=
  match sched with
  | .Event _ => (dateNaive date).ltb (dateNaive L.occ.start) = true
  | .ProgressTask _ => (dateNaive date).ltb (dateNaive L.occ.end_) = true
  | .DeadlineTask _ => date < L.occ.end_

/-- An item whose latest stored occurrence exists and triggers no
regeneration at the given reference instant. -/
def itemNoRegen (db : DbState) (date : Int) (item : StoredItem) : Prop :=
  ∃ L, dbLatestOcc db item.id = some L ∧ noRegenOcc date item.item.sched L

theorem noRegenOcc_gen_empty (date : Int) (sched : Sched) (L : StoredOcc)
    (h : noRegenOcc date sched L) : occGenAfter sched L.occ date = [] := by
  cases sched with
  | Event s => exact eventGenerateAfter_empty s L.occ date h
  | ProgressTask s => exact ptGenerateAfter_empty s L.occ date h
  | DeadlineTask d => exact dlGenerateAfter_empty d L.occ date h

/-- The `(item, latest occurrence)` pairs the materialiser falls back to
when nothing is generated. -/
def latestsOf (db : DbState) (items : List StoredItem) :
    List (StoredItem × StoredOcc) :=
  items.filterMap (fun item =>
    (dbLatestOcc db item.id).map (fun L => (item, L)))

theorem gico_fold_no_regen (db : DbState) (date : Int)
    (items : List StoredItem)
    (h : ∀ item ∈ items, itemNoRegen db date item) :
    ∀ lo t, items.foldl (gicoItemStep db date) ⟨[], [], lo, t⟩ =
      ⟨[], [], lo ++ latestsOf db items, t⟩ := by
  induction items with
  | nil =>
      intro lo t
      simp [latestsOf]
  | cons item rest ih =>
      intro lo t
      obtain ⟨L, hL, hnr⟩ := h item (List.mem_cons_self item rest)
      have hstep : gicoItemStep db date ⟨[], [], lo, t⟩ item =
          ⟨[], [], lo ++ [(item, L)], t⟩ := by
        unfold gicoItemStep
        rw [hL]
        simp [noRegenOcc_gen_empty date item.item.sched L hnr]
      rw [List.foldl_cons, hstep,
        ih (fun i hi => h i (List.mem_cons_of_mem item hi)) (lo ++ [(item, L)])
          t]
      unfold latestsOf
      rw [List.filterMap_cons]
      simp [hL, latestsOf]

/-- C1 (amended): when every requested item's latest stored occurrence lies
strictly beyond the reference instant's day (events: starts on a later day;
progress tasks: ends on a later day; deadline tasks: ends after the
instant), `get_items_current_occ` issues no occurrence-creating writes,
leaves the store unchanged, and a second consecutive call with the same
`reference_now` returns the same `(item, occurrence)` result.  This is the
state reached one call after the counterexample; in the claim's highlighted
case — the latest event occurrence falling on the reference day itself —
the condition fails and the next call does write (see the
counterexample). -/
theorem C1_idempotent_when_no_regeneration (db : DbState) (date : Int)
    (items : List StoredItem) (tok tok2 : Nat)
    (h : ∀ item ∈ items, itemNoRegen db date item) :
    (get_items_current_occ db date items tok).db = db ∧
    (get_items_current_occ db date items tok).creates = [] ∧
    (get_items_current_occ (get_items_current_occ db date items tok).db date
        items tok2).result =
      (get_items_current_occ db date items tok).result := by
  have hcall : ∀ t, get_items_current_occ db date items t =
      ⟨db, (latestsOf db items).filter
        (fun p => occ_is_current date p.1.item.sched p.2.occ), []⟩ := by
    intro t
    unfold get_items_current_occ
    rw [gico_fold_no_regen db date items h [] t]
    rfl
  rw [hcall tok]
  exact ⟨rfl, rfl, by rw [hcall tok2]⟩

/-- The store state one call after the counterexample: the latest stored
occurrence for item "e" is on 2024-01-11, strictly after the reference
day 2024-01-10. -/
def occJan11 : StoredOcc :=
  ⟨"1", ⟨true, day_to_occ_date ⟨2024, 1, 11⟩, day_to_occ_date ⟨2024, 1, 11⟩,
    0⟩⟩

def dbC1w : DbState := ⟨[itemEvC1], [("e", occJan11)], [], 2⟩

theorem C1_idempotent_when_no_regeneration_witness :
    (∀ item ∈ [itemEvC1], itemNoRegen dbC1w dateC1 item) ∧
    ((get_items_current_occ dbC1w dateC1 [itemEvC1] 5).db = dbC1w ∧
     (get_items_current_occ dbC1w dateC1 [itemEvC1] 5).creates = [] ∧
     (get_items_current_occ
         (get_items_current_occ dbC1w dateC1 [itemEvC1] 5).db dateC1
         [itemEvC1] 7).result =
       (get_items_current_occ dbC1w dateC1 [itemEvC1] 5).result) :=
  have hyp : ∀ item ∈ [itemEvC1], itemNoRegen dbC1w dateC1 item := by
    intro item him
    rw [List.mem_singleton] at him
    subst him
    exact ⟨occJan11, by decide,
      (by decide :
        (dateNaive dateC1).ltb (dateNaive occJan11.occ.start) = true)⟩
  ⟨hyp, C1_idempotent_when_no_regeneration dbC1w dateC1 [itemEvC1] 5 7 hyp⟩

/-! ## Neighbour expansion and `resolve_occs_progress`
(`util/progress.rs`) -/

/-- Rust's `Ord` on `Option<T>`: `None` sorts before `Some`. -/
def optIntLe (a b : Option Int) : Bool :=
  match a, b with
  | none, _ => true
  | some _, none => false
  | some x, some y => decide (x ≤ y)

/-- `Iterator::min` over `Option<Int>` items. -/
def iterMin (l : List (Option Int)) : Option (Option Int) :=
  l.foldl (fun acc a =>
    match acc with
    | none => some a
    | some m => if optIntLe a m then some a else some m) none

/-- `Iterator::max` over `Option<Int>` items. -/
def iterMax (l : List (Option Int)) : Option (Option Int) :=
  l.foldl (fun acc a =>
    match acc with
    | none => some a
    | some m => if optIntLe m a then some a else some m) none

/-- `expand_occs_for_progress` from `util/progress.rs`: compute the union
donation window of the current occurrence set (note the source's `min`
makes the window start `None` — no expansion — as soon as any occurrence
lacks a config, because `None < Some`), fetch every occurrence of the same
items overlapping it, and resolve configs for the newly seen ones. -/
def expand_occs_for_progress (db : DbState)
    (occs : List (String × List Occ))
    (configs : List (Occ × ResolvedConfig)) :
    List (String × List Occ) × List (Occ × ResolvedConfig) :=
  let item_ids := occs.map Prod.fst
  let startOpt : Option Int :=
    (iterMin (occs.foldl (fun acc p => acc ++ p.2.map (fun o =>
      (alGet configs o).map (fun c =>
        o.start -
          c.resolved_config.task_completion_conf.excess_past_chrono)))
      [])).join
  let endOpt : Option Int :=
    (iterMax (occs.foldl (fun acc p => acc ++ p.2.map (fun o =>
      (alGet configs o).map (fun c =>
        o.end_ +
          c.resolved_config.task_completion_conf.excess_future_chrono)))
      [])).join
  match startOpt, endOpt with
  | some s, some e =>
      let retrieved := dbFindOccs db item_ids (some s) (some e) .Asc (U32 - 1)
      let upd := retrieved.foldl
        (fun (st : List (String × List Occ) × List (String × StoredOcc)) p =>
          let cur := (alGet st.1 p.1).getD []
          if p.2.occ ∈ cur then st
          else (alInsert st.1 p.1 (cur ++ [p.2.occ]), st.2 ++ [p]))
        (occs, [])
      let new_items := dbGetItems db (upd.2.map Prod.fst)
      let new_items_occs := upd.2.filterMap (fun p =>
        (new_items.find? (fun i => i.id == p.1)).map (fun i => (i, p.2)))
      let configs2 := (get_occs_configs db new_items_occs).foldl
        (fun cfgs oc => alInsert cfgs oc.1.occ oc.2) configs
      (upd.1, configs2)
  | _, _ => (occs, configs)

/-- One step of the final filter loop of `resolve_occs_progress`: move the
entry for a requested occurrence (if computed) from the working map into
the result. -/
def rOPCollectStep
    (st : List (Occ × TaskProgress) × List (Occ × TaskProgress))
    (oc : Occ × ResolvedConfig) :
    List (Occ × TaskProgress) × List (Occ × TaskProgress) :=
  match alGet st.1 oc.1 with
  | some progress => (alRemove st.1 oc.1, st.2 ++ [(oc.1, progress)])
  | none => st

/-- `resolve_occs_progress` from `util/progress.rs`: seed the expanded
occurrence set and config map from the request, expand twice through the
store, resolve each requested item's expanded set, and finally keep only
the requested occurrences. -/
def resolve_occs_progress (db : DbState)
    (occs : List (String × List (Occ × ResolvedConfig))) :
    List (Occ × TaskProgress) :=
  let expanded0 : List (String × List Occ) :=
    occs.foldl (fun eo p => alInsert eo p.1 (dedupKeep (p.2.map Prod.fst))) []
  let configs0 : List (Occ × ResolvedConfig) :=
    occs.foldl (fun cf p =>
      p.2.foldl (fun cf2 oc => alInsert cf2 oc.1 oc.2) cf) []
  let e1 := expand_occs_for_progress db expanded0 configs0
  let e2 := expand_occs_for_progress db e1.1 e1.2
  let occs_progress := occs.foldl (fun op p =>
    let item_occs_configs := ((alGet e2.1 p.1).getD []).filterMap
      (fun o => (alGet e2.2 o).map (fun c => (o, c)))
    (resolve_occs_progress_using item_occs_configs).foldl
      (fun op2 r => alInsert op2 r.1 r.2) op) []
  (occs.foldl (fun st p => p.2.foldl rOPCollectStep st)
    (occs_progress, [])).2

theorem rOPCollect_inner (l : List (Occ × ResolvedConfig))
    (st : List (Occ × TaskProgress) × List (Occ × TaskProgress))
    (x : Occ × TaskProgress) (hx : x ∈ (l.foldl rOPCollectStep st).2) :
    x ∈ st.2 ∨ ∃ q ∈ l, q.1 = x.1 := by
  induction l generalizing st with
  | nil => exact Or.inl hx
  | cons a l ih =>
      rw [List.foldl_cons] at hx
      rcases ih _ hx with h | ⟨q, hq, hqe⟩
      · unfold rOPCollectStep at h
        split at h
        · rw [List.mem_append] at h
          rcases h with h | h
          · exact Or.inl h
          · simp only [List.mem_singleton] at h
            exact Or.inr ⟨a, List.mem_cons_self a l, by rw [h]⟩
        · exact Or.inl h
      · exact Or.inr ⟨q, List.mem_cons_of_mem a hq, hqe⟩

theorem rOPCollect_outer (os : List (String × List (Occ × ResolvedConfig)))
    (st : List (Occ × TaskProgress) × List (Occ × TaskProgress))
    (x : Occ × TaskProgress)
    (hx : x ∈ (os.foldl (fun st2 p => p.2.foldl rOPCollectStep st2) st).2) :
    x ∈ st.2 ∨ ∃ p ∈ os, ∃ q ∈ p.2, q.1 = x.1 := by
  induction os generalizing st with
  | nil => exact Or.inl hx
  | cons a os ih =>
      rw [List.foldl_cons] at hx
      rcases ih _ hx with h | ⟨p, hp, hq⟩
      · rcases rOPCollect_inner a.2 st x h with h2 | ⟨q, hq, hqe⟩
        · exact Or.inl h2
        · exact Or.inr ⟨a, List.mem_cons_self a os, q, hq, hqe⟩
      · exact Or.inr ⟨p, List.mem_cons_of_mem a hp, hq⟩

/-- C10: the keys of the map returned by `resolve_occs_progress` are a
subset of the occurrences passed in by the caller; occurrences pulled in
from the store by the two expansion passes participate in the donation
computation but never appear in the result (the final loop only moves
requested occurrences into the returned map). -/
theorem C10_result_keys_from_request (db : DbState)
    (occs : List (String × List (Occ × ResolvedConfig)))
    (x : Occ × TaskProgress) (hx : x ∈ resolve_occs_progress db occs) :
    ∃ p ∈ occs, ∃ q ∈ p.2, q.1 = x.1 := by
  unfold resolve_occs_progress at hx
  rcases rOPCollect_outer occs _ x hx with h | h
  · cases h
  · exact h

def dbC10 : DbState := ⟨[], [], [], 0⟩

def occsC10 : List (String × List (Occ × ResolvedConfig)) :=
  [("i", [(occA, rcS5)])]

theorem C10_result_keys_from_request_witness :
    ∃ p ∈ occsC10, ∃ q ∈ p.2, q.1 = occA :=
  C10_result_keys_from_request dbC10 occsC10 (occA, ⟨15, 10, 0, 0⟩)
    (by decide)

end Dunsumday
